import Mathlib

/-!
Verification of the response-flattening and credential-resolution logic of
wrapper.py, a command-line utility that forwards a prompt to the Gemini API
with the code-execution tool enabled and flattens the response.

The shallow embedding below mirrors the source:
  - the response object shape consumed by the code
    (response.candidates[0].content.parts with optional fields on each part),
  - display_code_execution_result (wrapper.py lines 26 to 64), whose global
    mutable variable responseText is modeled by explicit state passing: the
    function takes the prior value of the global and returns the new one;
    the unhandled IndexError raised by response.candidates[0] on an empty
    candidate list is modeled by returning none,
  - the credential-resolution step of main (wrapper.py lines 76 to 81),
    where Python value truthiness makes both None and the empty string falsy,
  - the output step of main (wrapper.py lines 96 to 107), which builds a
    structured record but prints only the flattened transcript.
-/

namespace Wrapper

set_option linter.unusedVariables false

/-- Shape of part.inline_data consumed by the code: data plus an optional
mime_type (read with getattr and a None default). -/
structure InlineData where
  data : String
  mime_type : Option String
deriving Repr, DecidableEq

/-- Shape of part.executable_code consumed by the code: a code string, and a
language attribute; some l models hasattr returning true with value l,
none models the attribute being absent. -/
structure ExecutableCode where
  code : String
  language : Option String
deriving Repr, DecidableEq

/-- Shape of part.code_execution_result consumed by the code: an output
string. -/
structure CodeExecutionResult where
  output : String
deriving Repr, DecidableEq

/-- One content part of a candidate. Each field models the corresponding
optional attribute of the SDK part object; none models the attribute being
None (or absent, for the getattr-probed fields). -/
structure Part where
  text : Option String
  executable_code : Option ExecutableCode
  code_execution_result : Option CodeExecutionResult
  inline_data : Option InlineData
deriving Repr, DecidableEq

/-- candidate.content: an ordered list of parts. -/
structure Content where
  parts : List Part
deriving Repr, DecidableEq

/-- One candidate of the response. -/
structure Candidate where
  content : Content
deriving Repr, DecidableEq

/-- The response object: an ordered list of candidates. -/
structure Response where
  candidates : List Candidate
deriving Repr, DecidableEq

/-- The per-part dictionary built by display_code_execution_result: each
field models the presence (some) or absence (none) of the corresponding
dictionary key. -/
structure PartResult where
  text : Option String := none
  code : Option String := none
  language : Option String := none
  execution_result : Option String := none
  inline_data : Option InlineData := none
deriving Repr, DecidableEq

/-- The body of the for loop of display_code_execution_result
(wrapper.py lines 45 to 63): given the accumulated results list and the
current value of the global responseText, process one part, appending to
responseText each present field among text, executable_code.code and
code_execution_result.output, in that order, and appending the per-part
dictionary to the results list. -/
def flattenStep (acc : List PartResult × String) (part : Part) :
    List PartResult × String :=
  let results := acc.1
  let responseText := acc.2
  let part_result : PartResult := {}
  let pr1 : PartResult × String :=
    match part.text with
    | some t => ({ part_result with text := some t }, responseText ++ t)
    | none => (part_result, responseText)
  let pr2 : PartResult × String :=
    match part.executable_code with
    | some ec =>
        ({ pr1.1 with code := some ec.code, language := ec.language },
          pr1.2 ++ ec.code)
    | none => pr1
  let pr3 : PartResult × String :=
    match part.code_execution_result with
    | some r =>
        ({ pr2.1 with execution_result := some r.output }, pr2.2 ++ r.output)
    | none => pr2
  let pr4 : PartResult :=
    match part.inline_data with
    | some d => { pr3.1 with inline_data := some d }
    | none => pr3.1
  (results ++ [pr4], pr3.2)

/-- display_code_execution_result (wrapper.py lines 26 to 64).
The global variable responseText is threaded explicitly: responseText0 is
its value before the call. The function first evaluates
response.candidates[0]; an empty candidate list raises an unhandled
IndexError, modeled by none. Otherwise it resets the global to the empty
string (line 44) and folds the loop body over the parts of the first
candidate, returning the results list together with the final value of the
global. -/
def display_code_execution_result (responseText0 : String)
    (response : Response) : Option (List PartResult × String) :=
  match response.candidates with
  | [] => none
  | candidate :: _ =>
      some (candidate.content.parts.foldl flattenStep ([], ""))

/-- Specification-side description of one part's contribution to the
transcript: its text field, then its executable code, then its execution
output, each contributing the empty string when absent. -/
def partTranscript (p : Part) : String :=
  (match p.text with | some t => t | none => "") ++
  (match p.executable_code with | some ec => ec.code | none => "") ++
  (match p.code_execution_result with | some r => r.output | none => "")

/-- Specification-side transcript of a list of parts: the ordered
concatenation of the per-part contributions. -/
def specTranscript : List Part → String
  | [] => ""
  | p :: ps => partTranscript p ++ specTranscript ps

/-- Specification-side description of the per-part dictionary built by the
loop body for one part. -/
def partRecord (p : Part) : PartResult :=
  { text := p.text,
    code := (match p.executable_code with
             | some ec => some ec.code
             | none => none),
    language := (match p.executable_code with
                 | some ec => ec.language
                 | none => none),
    execution_result := (match p.code_execution_result with
                         | some r => some r.output
                         | none => none),
    inline_data := p.inline_data }

theorem flattenStep_eq (rs : List PartResult) (s : String) (p : Part) :
    flattenStep (rs, s) p = (rs ++ [partRecord p], s ++ partTranscript p) := by
  cases ht : p.text <;> cases hec : p.executable_code <;>
    cases hr : p.code_execution_result <;> cases hd : p.inline_data <;>
    simp [flattenStep, partRecord, partTranscript, ht, hec, hr, hd,
      String.append_empty, String.append_assoc]

theorem foldl_flattenStep (parts : List Part) (rs : List PartResult)
    (s : String) :
    parts.foldl flattenStep (rs, s) =
      (rs ++ parts.map partRecord, s ++ specTranscript parts) := by
  induction parts generalizing rs s with
  | nil => simp [specTranscript, String.append_empty]
  | cons p ps ih =>
      rw [List.foldl_cons, flattenStep_eq, ih]
      simp [specTranscript, String.append_assoc]

/-- Closed form of display_code_execution_result on a non-empty candidate
list: the results are the per-part records of the first candidate's parts,
and the final transcript is their specification-side concatenation,
independently of the prior value of the global. -/
theorem display_eq (g : String) (c : Candidate) (rest : List Candidate) :
    display_code_execution_result g { candidates := c :: rest } =
      some (c.content.parts.map partRecord, specTranscript c.content.parts) := by
  show some (c.content.parts.foldl flattenStep ([], "")) = _
  rw [foldl_flattenStep]
  simp [String.empty_append]

/-- Python truthiness of the values flowing through the key resolution:
None is falsy, the empty string is falsy, every other string is truthy. -/
def pyTruthy : Option String → Bool
  | none => false
  | some s => s ≠ ""

/-- The expression args.api_key or os.environ.get(GEMINI_API_KEY)
(wrapper.py line 76): Python or returns its left operand when truthy,
otherwise its right operand. -/
def resolve_api_key (api_key_arg : Option String)
    (env_gemini_api_key : Option String) : Option String :=
  if pyTruthy api_key_arg then api_key_arg else env_gemini_api_key

/-- Outcome of main up to the first network activity: either the ValueError
of wrapper.py line 78 (uncaught, so the process terminates with a non-zero
exit), or main proceeds to construct the client and issue the network call
with the resolved key. -/
inductive MainPhase where
  | configError : MainPhase
  | networkCall : String → MainPhase
deriving Repr, DecidableEq

/-- main up to the first network activity (wrapper.py lines 76 to 81):
resolve the key from the command-line argument and the environment
variable; if the result is falsy (None or empty), raise the configuration
ValueError before any client construction or network call; otherwise
proceed to the network call with the resolved key. -/
def main_until_network (api_key_arg : Option String)
    (env_gemini_api_key : Option String) : MainPhase :=
  match resolve_api_key api_key_arg env_gemini_api_key with
  | none => MainPhase.configError
  | some k => if k = "" then MainPhase.configError else MainPhase.networkCall k

/-- The structured output dictionary built by main (wrapper.py
lines 99 to 104). -/
structure OutputRecord where
  prompt : String
  structured_response : List PartResult
  model : String
  status : String
deriving Repr, DecidableEq

/-- The record main builds at wrapper.py lines 99 to 104: the prompt, the
structured parts, a fixed model label and the status literal. -/
def main_output_record (prompt : String)
    (structured_parts : List PartResult) : OutputRecord :=
  { prompt := prompt,
    structured_response := structured_parts,
    model := "gemini-2.0-flash-thinking-exp",
    status := "success" }

/-- The post-response stage of main (wrapper.py lines 96 to 107): flatten
the response with display_code_execution_result (the global responseText
holds the empty string on a fresh process run), build the structured output
record, and print responseText; the returned string is the exact text
written to standard output (print appends a newline). none models the
IndexError propagating out of the flattening step. -/
def main_output_stage (prompt : String) (response : Response) :
    Option (OutputRecord × String) :=
  match display_code_execution_result "" response with
  | none => none
  | some (parts, responseText) =>
      some (main_output_record prompt parts, responseText ++ "\n")

/-- Specification-side contribution of one per-part record to the
transcript: the values of its text, code and execution_result entries, in
that order, each contributing the empty string when the key is absent. -/
def recordTranscriptPart (r : PartResult) : String :=
  (match r.text with | some s => s | none => "") ++
  (match r.code with | some s => s | none => "") ++
  (match r.execution_result with | some s => s | none => "")

/-- Specification-side transcript reconstructed from a list of per-part
records. -/
def recordsTranscript : List PartResult → String
  | [] => ""
  | r :: rs => recordTranscriptPart r ++ recordsTranscript rs

/-- A part with its inline_data field removed. -/
def eraseInlinePart (p : Part) : Part :=
  { p with inline_data := none }

/-- A candidate with inline_data removed from every part. -/
def eraseInlineCandidate (c : Candidate) : Candidate :=
  { content := { parts := c.content.parts.map eraseInlinePart } }

theorem recordTranscriptPart_partRecord (p : Part) :
    recordTranscriptPart (partRecord p) = partTranscript p := by
  cases ht : p.text <;> cases hec : p.executable_code <;>
    cases hr : p.code_execution_result <;>
    simp [recordTranscriptPart, partRecord, partTranscript, ht, hec, hr]

theorem recordsTranscript_map_partRecord (ps : List Part) :
    recordsTranscript (ps.map partRecord) = specTranscript ps := by
  induction ps with
  | nil => rfl
  | cons p ps ih =>
      simp [recordsTranscript, specTranscript, recordTranscriptPart_partRecord,
        ih]

theorem partTranscript_eraseInline (p : Part) :
    partTranscript (eraseInlinePart p) = partTranscript p := rfl

theorem specTranscript_eraseInline (ps : List Part) :
    specTranscript (ps.map eraseInlinePart) = specTranscript ps := by
  induction ps with
  | nil => rfl
  | cons p ps ih =>
      simp [specTranscript, partTranscript_eraseInline, ih]

/-- A sample part carrying only a text field. -/
def textPart (t : String) : Part :=
  { text := some t, executable_code := none, code_execution_result := none,
    inline_data := none }

/-- A sample part carrying only a code-execution-result output field. -/
def outputPart (o : String) : Part :=
  { text := none, executable_code := none,
    code_execution_result := some { output := o }, inline_data := none }

/-- A sample part carrying only inline binary data. -/
def inlinePart (d : String) (m : Option String) : Part :=
  { text := none, executable_code := none, code_execution_result := none,
    inline_data := some { data := d, mime_type := m } }

/-- A part with none of the four optional fields set. -/
def emptyPart : Part :=
  { text := none, executable_code := none, code_execution_result := none,
    inline_data := none }

/-- A sample response matching the worked example of the spec: one candidate
with a text part and an execution-output part. -/
def sampleResponse : Response :=
  { candidates :=
      [{ content := { parts := [textPart "The answer is ", outputPart "4"] } }] }

/-- A sample response whose single candidate has zero parts. -/
def emptyPartsResponse : Response :=
  { candidates := [{ content := { parts := [] } }] }

/-- A sample response with an empty candidate list. -/
def noCandidatesResponse : Response :=
  { candidates := [] }

/-- Claim C1: for every response whose first candidate has N parts, the
flattened transcript equals the ordered concatenation, for i = 0..N-1, of
whichever of part i's text field, executable code field and
code-execution-result output field are present, in that fixed field order
within each part and in part order across parts, with no reordering,
filtering or placeholders for absent fields. -/
theorem claim_C1 (g : String) (response : Response) (c : Candidate)
    (rest : List Candidate) (h : response.candidates = c :: rest) :
    (display_code_execution_result g response).map Prod.snd =
      some (specTranscript c.content.parts) := by
  obtain ⟨cands⟩ := response
  simp only at h
  subst h
  rw [display_eq]
  rfl

/-- Witness for claim C1: on the worked example of the spec (a text part
followed by an execution-output part) the transcript is their
concatenation, independently of the prior value of the global. -/
theorem claim_C1_witness :
    (display_code_execution_result "stale" sampleResponse).map Prod.snd =
      some "The answer is 4" := by
  have h := claim_C1 "stale" sampleResponse
    { content := { parts := [textPart "The answer is ", outputPart "4"] } }
    [] rfl
  rw [h]
  rfl

/-- Claim C2: for every response whose candidate list is empty, the
flattener fails (the unhandled IndexError of response.candidates[0],
modeled by none) and no result is produced. -/
theorem claim_C2 (g : String) (response : Response)
    (h : response.candidates = []) :
    display_code_execution_result g response = none := by
  obtain ⟨cands⟩ := response
  simp only at h
  subst h
  rfl

/-- Witness for claim C2: the flattener fails on a concrete response with
no candidates. -/
theorem claim_C2_witness :
    display_code_execution_result "" noCandidatesResponse = none :=
  claim_C2 "" noCandidatesResponse rfl

/-- Claim C7: for every response whose first candidate has zero parts, the
flattener succeeds and produces an empty transcript and an empty per-part
record list; it does not raise an error. -/
theorem claim_C7 (g : String) (response : Response) (c : Candidate)
    (rest : List Candidate) (h : response.candidates = c :: rest)
    (hp : c.content.parts = []) :
    display_code_execution_result g response = some ([], "") := by
  obtain ⟨cands⟩ := response
  simp only at h
  subst h
  rw [display_eq, hp]
  rfl

/-- Witness for claim C7: a concrete response whose single candidate has
zero parts yields the empty record list and the empty transcript. -/
theorem claim_C7_witness :
    display_code_execution_result "old" emptyPartsResponse = some ([], "") :=
  claim_C7 "old" emptyPartsResponse { content := { parts := [] } } [] rfl rfl

/-- Claim C8: for every two responses that agree on candidates[0] but
differ in additional candidates, the flattener produces identical
structured records and identical transcripts: only candidates[0] is
inspected, the rest are silently ignored. -/
theorem claim_C8 (r1 r2 : Response) (c : Candidate)
    (rest1 rest2 : List Candidate) (h1 : r1.candidates = c :: rest1)
    (h2 : r2.candidates = c :: rest2) (g1 g2 : String) :
    display_code_execution_result g1 r1 =
      display_code_execution_result g2 r2 := by
  obtain ⟨cands1⟩ := r1
  obtain ⟨cands2⟩ := r2
  simp only at h1 h2
  subst h1
  subst h2
  rw [display_eq, display_eq]

/-- Witness for claim C8: two concrete responses sharing their first
candidate but differing afterwards flatten identically. -/
theorem claim_C8_witness :
    display_code_execution_result "a"
        { candidates := [{ content := { parts := [textPart "hi"] } }] } =
      display_code_execution_result "b"
        { candidates := [{ content := { parts := [textPart "hi"] } },
                         { content := { parts := [textPart "other"] } }] } :=
  claim_C8
    { candidates := [{ content := { parts := [textPart "hi"] } }] }
    { candidates := [{ content := { parts := [textPart "hi"] } },
                     { content := { parts := [textPart "other"] } }] }
    { content := { parts := [textPart "hi"] } } [] [_] rfl rfl "a" "b"

/-- Claim C10: for every response with a non-empty candidate list, the
flattener is deterministic and independent of prior calls: the global
accumulator is reset at the start of each call, so the result does not
depend on the transcript left by an earlier call, and two successive calls
on the same response agree. -/
theorem claim_C10 (g1 g2 : String) (response : Response)
    (h : response.candidates ≠ []) :
    display_code_execution_result g1 response =
      display_code_execution_result g2 response := by
  obtain ⟨cands⟩ := response
  cases cands with
  | nil => exact absurd rfl h
  | cons c rest => rw [display_eq, display_eq]

/-- Witness for claim C10: flattening the sample response after a stale
prior transcript equals flattening it on a fresh run. -/
theorem claim_C10_witness :
    display_code_execution_result "stale transcript" sampleResponse =
      display_code_execution_result "" sampleResponse :=
  claim_C10 "stale transcript" "" sampleResponse (by simp [sampleResponse])

/-- Claim C3: the output step prints only the flattened transcript as raw
text followed by a newline; the structured record built from the prompt and
the per-part breakdown is never serialized or printed, so the printed text
does not depend on the prompt at all. -/
theorem claim_C3 (prompt prompt2 : String) (response : Response)
    (c : Candidate) (rest : List Candidate)
    (h : response.candidates = c :: rest) :
    (main_output_stage prompt response).map Prod.snd =
        some (specTranscript c.content.parts ++ "\n") ∧
    (main_output_stage prompt response).map Prod.snd =
      (main_output_stage prompt2 response).map Prod.snd := by
  obtain ⟨cands⟩ := response
  simp only at h
  subst h
  constructor
  · rw [main_output_stage, display_eq]
    rfl
  · rw [main_output_stage, main_output_stage, display_eq]
    rfl

/-- Witness for claim C3: on the sample response the printed text is the
transcript plus a newline, for two different prompts alike. -/
theorem claim_C3_witness :
    (main_output_stage "compute 2+2" sampleResponse).map Prod.snd =
        some "The answer is 4\n" ∧
    (main_output_stage "compute 2+2" sampleResponse).map Prod.snd =
      (main_output_stage "another prompt" sampleResponse).map Prod.snd := by
  have h := claim_C3 "compute 2+2" "another prompt" sampleResponse
    { content := { parts := [textPart "The answer is ", outputPart "4"] } }
    [] rfl
  exact ⟨by rw [h.1]; rfl, h.2⟩

/-- Counterexample to claim C4 as stated: when the command-line value is
the empty string and the environment variable is set to B, Python or
treats the empty string as falsy and the resolved key is B, not the
command-line value. -/
theorem claim_C4_counterexample :
    resolve_api_key (some "") (some "B") = some "B" ∧
      resolve_api_key (some "") (some "B") ≠ some "" := by
  constructor
  · rfl
  · decide

/-- Claim C4, amended: for every invocation where --api-key is given a
NON-EMPTY value A and GEMINI_API_KEY is set to B, the resolved API key is
A (the command-line argument takes precedence over the environment
variable). -/
theorem claim_C4 (a b : String) (h : a ≠ "") :
    resolve_api_key (some a) (some b) = some a := by
  simp [resolve_api_key, pyTruthy, h]

/-- Witness for the amended claim C4: a concrete non-empty flag value wins
over the environment variable. -/
theorem claim_C4_witness :
    resolve_api_key (some "A") (some "B") = some "A" :=
  claim_C4 "A" "B" (by decide)

/-- Claim C5: for every invocation where neither --api-key is supplied nor
GEMINI_API_KEY is set, the configuration ValueError is raised before any
network call is attempted: main never reaches the network-call phase.
The error is uncaught, so the process terminates with a non-zero exit. -/
theorem claim_C5 :
    main_until_network none none = MainPhase.configError ∧
    ∀ k : String, main_until_network none none ≠ MainPhase.networkCall k := by
  constructor
  · rfl
  · intro k hk
    exact MainPhase.noConfusion hk

/-- Claim C6: for every part that carries inline binary data, the inline
data is recorded in the per-part structured record, but it is never
appended to the flattened text transcript: erasing all inline data from
the first candidate leaves the transcript unchanged. -/
theorem claim_C6 (g g2 : String) (c : Candidate) (rest rest2 : List Candidate)
    (i : Nat) (hi : i < c.content.parts.length) :
    ∃ res t,
      display_code_execution_result g { candidates := c :: rest } =
          some (res, t) ∧
      (res.get? i).map PartResult.inline_data =
          some (c.content.parts.get ⟨i, hi⟩).inline_data ∧
      (display_code_execution_result g2
          { candidates := eraseInlineCandidate c :: rest2 }).map Prod.snd =
        some t := by
  refine ⟨c.content.parts.map partRecord, specTranscript c.content.parts,
    display_eq g c rest, ?_, ?_⟩
  · rw [List.get?_map, List.get?_eq_get hi]
    rfl
  · rw [display_eq]
    simp only [Option.map_some, eraseInlineCandidate]
    rw [specTranscript_eraseInline]
    rfl

/-- Witness for claim C6: a concrete part carrying inline data has it
recorded in its structured record while the transcript ignores it. -/
theorem claim_C6_witness :
    ∃ res t,
      display_code_execution_result "g"
          { candidates :=
              [{ content :=
                  { parts := [inlinePart "bytes" (some "image/png")] } }] } =
          some (res, t) ∧
      (res.get? 0).map PartResult.inline_data =
          some (([inlinePart "bytes" (some "image/png")]).get
            ⟨0, by decide⟩).inline_data ∧
      (display_code_execution_result "h"
          { candidates :=
              [eraseInlineCandidate
                { content :=
                    { parts := [inlinePart "bytes" (some "image/png")] } }] }).map
          Prod.snd =
        some t :=
  claim_C6 "g" "h"
    { content := { parts := [inlinePart "bytes" (some "image/png")] } }
    [] [] 0 (by decide)

/-- Claim C9: for every response with a non-empty candidate list, the
transcript equals the in-order concatenation over the returned per-part
records of the values of the text, code and execution_result entries
whenever present; the language and inline_data entries never contribute to
the transcript; and the record list has exactly one record per part, a
part with no recognized field contributing an empty record rather than a
skipped one. -/
theorem claim_C9 (g : String) (response : Response) (c : Candidate)
    (rest : List Candidate) (h : response.candidates = c :: rest) :
    ∃ res t,
      display_code_execution_result g response = some (res, t) ∧
      res.length = c.content.parts.length ∧
      t = recordsTranscript res ∧
      (∀ (r : PartResult) (l : Option String) (d : Option InlineData),
        recordTranscriptPart { r with language := l, inline_data := d } =
          recordTranscriptPart r) ∧
      (∀ i (hi : i < c.content.parts.length),
        c.content.parts.get ⟨i, hi⟩ = emptyPart →
        res.get? i = some {}) := by
  obtain ⟨cands⟩ := response
  simp only at h
  subst h
  refine ⟨c.content.parts.map partRecord, specTranscript c.content.parts,
    display_eq g c rest, by rw [List.length_map],
    (recordsTranscript_map_partRecord c.content.parts).symm,
    fun r l d => rfl, ?_⟩
  intro i hi hp
  rw [List.get?_map, List.get?_eq_get hi, hp]
  rfl

/-- Witness for claim C9: on a concrete response with a text part and an
empty part, the transcript reconstructs from the records, and the empty
part yields an empty record in place. -/
theorem claim_C9_witness :
    ∃ res t,
      display_code_execution_result "w"
          { candidates :=
              [{ content := { parts := [textPart "x", emptyPart] } }] } =
          some (res, t) ∧
      res.length = ([textPart "x", emptyPart] : List Part).length ∧
      t = recordsTranscript res ∧
      (∀ (r : PartResult) (l : Option String) (d : Option InlineData),
        recordTranscriptPart { r with language := l, inline_data := d } =
          recordTranscriptPart r) ∧
      (∀ i (hi : i < ([textPart "x", emptyPart] : List Part).length),
        ([textPart "x", emptyPart] : List Part).get ⟨i, hi⟩ = emptyPart →
        res.get? i = some {}) :=
  claim_C9 "w"
    { candidates := [{ content := { parts := [textPart "x", emptyPart] } }] }
    { content := { parts := [textPart "x", emptyPart] } } [] rfl

end Wrapper
